import Mathlib

/-!
A shallow embedding of `.codex/aggregate_tasks.mjs` (the task-aggregation
script of this repository) and proofs about it.  Each definition's doc
comment cites the source lines it translates.  JavaScript `undefined` is
embedded as `Option`, numbers as `ℚ` (or `Nat` where the script only
produces naturals), and the falsy-chain idiom `a || b` is translated
explicitly where the empty string or zero matters, or noted as
pre-resolved in a field's doc comment.
-/

namespace AggregateTasks

/-- JS word characters (`\w`, i.e. `[A-Za-z0-9_]`), used for the `\b`
boundaries of the label regexes (lines 39-41, 62-63). -/
def isWordChar (c : Char) : Bool := c.isAlphanum || c == '_'

/-- Lower-cased character list of a string (`.toLowerCase()`, restricted
to the ASCII case mapping). -/
def lowerChars (s : String) : List Char := s.data.map Char.toLower

/-- Boolean check that `p` is a prefix of `s`, over character lists. -/
def charsPrefix : List Char → List Char → Bool
  | _, [] => true
  | [], _ :: _ => false
  | a :: s, b :: p => a == b && charsPrefix s p

/-- Boolean substring containment over character lists: the semantics of
`/lit/.test(n)` for a literal (alternation-free) pattern `lit`. -/
def hasSub : List Char → List Char → Bool
  | [], p => p.isEmpty
  | c :: rest, p => charsPrefix (c :: rest) p || hasSub rest p

/-- Lines 49-53: `names.some(n => /a|b|c/.test(n))` — some label name
(lower-cased) contains one of the group's literal alternatives. -/
def labelGroupHit (labels : List String) (keys : List String) : Bool :=
  labels.any fun l => keys.any fun k => hasSub (lowerChars l) k.data

/-- Lines 47-55 (`guessType`): the label names are lower-cased and tested
against the alternation groups in order — `bug|fix|defect`, `doc|docs`,
`feat|feature|enhancement`, `infra|ops|devops`, `task|chore`; the first
group some name matches wins; otherwise `fallback || "task"`. -/
def guessType (labels : List String) (fallback : String) : String :=
  if labelGroupHit labels ["bug", "fix", "defect"] then "bug"
  else if labelGroupHit labels ["doc", "docs"] then "docs"
  else if labelGroupHit labels ["feat", "feature", "enhancement"] then "feature"
  else if labelGroupHit labels ["infra", "ops", "devops"] then "infra"
  else if labelGroupHit labels ["task", "chore"] then "task"
  else if fallback == "" then "task" else fallback

/-- Leading decimal digits of a character list, with the rest (`\d+`
matched greedily). -/
def takeDigits : List Char → List Char × List Char
  | [] => ([], [])
  | c :: rest =>
    if c.isDigit then
      let r := takeDigits rest
      (c :: r.1, r.2)
    else ([], c :: rest)

/-- `parseInt(·, 10)` of a captured digit group. -/
def digitsToNat (ds : List Char) : Nat :=
  ds.foldl (fun a c => a * 10 + (c.toNat - 48)) 0

/-- The separator class `[:= -]` of the points regexes (lines 39-40,
62-63): colon, equals, space or hyphen. -/
def isSepChar (c : Char) : Bool := c == ':' || c == '=' || c == ' ' || c == '-'

/-- `[:= -]?` — consume one optional separator.  (If a separator is
present the regex must consume it: the following `\d+` cannot match a
separator character, so no backtracking alternative exists.) -/
def dropSep1 : List Char → List Char
  | [] => []
  | c :: rest => if isSepChar c then rest else c :: rest

/-- `s?` after the literal `point` — consume one optional `s`.  (If an
`s` is present the regex must consume it: neither `[:= -]?` nor `\d+`
nor a `\b` after `t` can absorb it.) -/
def dropOneS : List Char → List Char
  | 's' :: rest => rest
  | cs => cs

/-- JS `\s` whitespace characters (the ASCII ones). -/
def isWsChar (c : Char) : Bool :=
  c == ' ' || c == '\t' || c == '\n' || c == '\r' || c == '\x0b' || c == '\x0c'

/-- `\s*` — consume greedily. -/
def dropWs : List Char → List Char
  | [] => []
  | c :: rest => if isWsChar c then dropWs rest else c :: rest

/-- `\b` after a digit group: end of string or a non-word character. -/
def boundaryAfter : List Char → Bool
  | [] => true
  | c :: _ => !isWordChar c

/-- `(\d+)\b`: a non-empty greedy digit group followed by a word
boundary, returning the captured value.  (Giving digits back cannot
create a boundary between two digits, so the greedy match is the only
candidate.) -/
def digitsBnd (cs : List Char) : Option Nat :=
  let d := takeDigits cs
  if d.1.isEmpty then none
  else if boundaryAfter d.2 then some (digitsToNat d.1) else none

/-- Line 39: the match attempt of `p[:= -]?(\d+)\b` at one position
(the `\b` before `p` is checked by the scanner). -/
def p1At : List Char → Option Nat
  | 'p' :: rest => digitsBnd (dropSep1 rest)
  | _ => none

/-- Line 40: the match attempt of `points?[:= -]?(\d+)\b` at one
position. -/
def p2At : List Char → Option Nat
  | 'p' :: 'o' :: 'i' :: 'n' :: 't' :: rest => digitsBnd (dropSep1 (dropOneS rest))
  | _ => none

/-- Line 41: the match attempt of `(\d+)\s*points?\b` at one position.
After `point`, an `s` must be consumed when present (a boundary between
`t` and `s` is impossible), and the trailing `\b` is checked after it. -/
def p3At (cs : List Char) : Option Nat :=
  let d := takeDigits cs
  if d.1.isEmpty then none
  else
    match dropWs d.2 with
    | 'p' :: 'o' :: 'i' :: 'n' :: 't' :: rest =>
      match rest with
      | 's' :: rest2 => if boundaryAfter rest2 then some (digitsToNat d.1) else none
      | _ => if boundaryAfter rest then some (digitsToNat d.1) else none
    | _ => none

/-- The regex scan: attempt `tryAt` at every position whose preceding
character is absent or non-word (all three patterns start with a word
character, so `\b` holds exactly there), left to right, first match
wins; on failure resume at the next position. -/
def scanFrom (tryAt : List Char → Option Nat) : Bool → List Char → Option Nat
  | _, [] => none
  | bnd, c :: rest =>
    match (if bnd then tryAt (c :: rest) else none) with
    | some n => some n
    | none => scanFrom tryAt (!isWordChar c) rest

/-- `s.match(re)` for one of the three points regexes: scan from the
start of the string. -/
def scanMatch (tryAt : List Char → Option Nat) (s : List Char) : Option Nat :=
  scanFrom tryAt true s

/-- Lines 37-43, one label: lower-case it, then try the three regexes in
order — `\bp[:= -]?(\d+)\b`, `\bpoints?[:= -]?(\d+)\b`,
`\b(\d+)\s*points?\b` — returning the first captured value. -/
def pointsOfLabel (label : String) : Option Nat :=
  match scanMatch p1At (lowerChars label) with
  | some n => some n
  | none =>
    match scanMatch p2At (lowerChars label) with
    | some n => some n
    | none => scanMatch p3At (lowerChars label)

/-- Lines 35-45 (`parsePoints`): the first label with a match wins and
yields `Math.max(1, parseInt(m[1], 10))`; absent any match the default
is 1. -/
def parsePoints (labels : List String) : Nat :=
  match labels.findSome? pointsOfLabel with
  | some n => max 1 n
  | none => 1

/-- Lines 57-65 (`takeTags`): drop empty names (`filter(Boolean)`), drop
names matching `\bp[:= -]?\d+\b` (lower-cased), drop names matching
`\bpoints?[:= -]?\d+\b` (lower-cased), then `slice(0, 6)`.  The third
points pattern `\b(\d+)\s*points?\b` is NOT filtered here. -/
def takeTags (labels : List String) : List String :=
  ((((labels.filter fun n => n != "").filter
      fun n => !(scanMatch p1At (lowerChars n)).isSome).filter
      fun n => !(scanMatch p2At (lowerChars n)).isSome).take 6)

/-- Split a character list on `/`. -/
def splitSlashAux (acc : List Char) : List Char → List (List Char)
  | [] => [acc.reverse]
  | c :: rest =>
    if c == '/' then acc.reverse :: splitSlashAux [] rest
    else splitSlashAux (c :: acc) rest

/-- Lines 67-71 (`repoFromUrl`): `repository_url.split("/")` and take the
last part (`parts.slice(-1)[0]`). -/
def repoFromUrl (repository_url : String) : String :=
  String.mk ((splitSlashAux [] repository_url.data).getLastD [])

/-- The task record emitted by the script (lines 99-110 and 182-193).
`repo`, `number` and `title` may be `undefined` in the GitHub branch or
the Notion branch; `points` and `progress` are JS numbers. -/
structure Task where
  source : String
  type : String
  repo : Option String
  number : Option ℚ
  title : Option String
  url : String
  points : ℚ
  tags : List String
  status : String
  progress : ℚ
  deriving DecidableEq

/-- A raw GitHub search item, with the fields the script reads (lines
91-105): `it.title`, `it.html_url`, `it.number`, `it.repository_url`,
`it.labels` (name strings), `it.pull_request` (presence), `it.state`. -/
structure GhRaw where
  title : Option String
  html_url : String
  number : Option ℚ
  repository_url : String
  labels : List String
  pull_request : Bool
  state : String
  deriving DecidableEq

/-- Lines 91-111: the GitHub record normalizer.  The title is passed
through verbatim (line 104) — there is no placeholder fallback on this
side. -/
def ghTaskOf (it : GhRaw) : Task :=
  let repo := repoFromUrl it.repository_url
  let type := guessType it.labels (if it.pull_request then "pr" else "issue")
  let points := parsePoints it.labels
  let status := if it.state == "closed" then "done" else "open"
  { source := "github"
    type := type
    repo := some repo
    number := it.number
    title := it.title
    url := it.html_url
    points := (points : ℚ)
    tags := takeTags it.labels
    status := status
    progress := if status == "done" then 1 else 0 }

/-- Line 114: the GitHub subset filter `t => SUBSET.has(t.repo)` — a
case-sensitive exact membership test with no leniency for records
lacking a repo (`has(undefined)` is false). -/
def ghKeep (subset : List String) (t : Task) : Bool :=
  match t.repo with
  | some r => subset.contains r
  | none => false

/-- A failed fetch (lines 31, 128): HTTP status and body text. -/
structure FetchError where
  status : Nat
  body : String
  deriving DecidableEq

/-- Lines 73-115 (`fetchGithubTasks`), given the settled raw search
items: normalize each item, then apply the subset filter when a subset
is configured (line 114); a fetch failure propagates (line 31). -/
def fetchGithubTasks (subset : Option (List String))
    (ghRes : Except FetchError (List GhRaw)) : Except FetchError (List Task) :=
  match ghRes with
  | .error e => .error e
  | .ok raws =>
    let tasks := raws.map ghTaskOf
    .ok (match subset with
      | some ss => tasks.filter (ghKeep ss)
      | none => tasks)

/-- The value of the Repo/Repository property fed to `normRepo`:
`undefined`, a single value, or an array (multi-select). -/
inductive RepoProp where
  | noVal : RepoProp
  | str : String → RepoProp
  | arr : List String → RepoProp
  deriving DecidableEq

/-- Lines 148-152 (`normRepo`): a falsy value (undefined or the empty
string) gives `undefined`; an array gives its first element (`[0]` of an
empty array is `undefined`); anything else is stringified. -/
def normRepo : RepoProp → Option String
  | .noVal => none
  | .str s => if s == "" then none else some s
  | .arr [] => none
  | .arr (x :: _) => some x

/-- Lines 154-158 (`normProgress`): `null`/`undefined` gives
`undefined`; `v > 1.001` gives `Math.max(0, Math.min(1, v / 100))`
(percent to fraction); otherwise `Math.max(0, Math.min(1, v))`. -/
def normProgress (v : Option ℚ) : Option ℚ :=
  match v with
  | none => none
  | some x =>
    if x > 1.001 then some (max 0 (min 1 (x / 100)))
    else some (max 0 (min 1 x))

/-- A raw Notion page, carrying the property reads of lines 171-180.
`name` is `prop(p, "Name")`; `statusStr` is the first truthy of
`prop(p, "Status")` and `prop(p, "status")` (`none` when both are
falsy); `urlProp` is the first truthy of `prop(p, "URL")` and
`prop(p, "Link")`; `pointsProp` is the first truthy of
`prop(p, "Points")` and `prop(p, "pts")`; `tagsProp` is
`prop(p, "Tags")` when it is an array, `none` otherwise; `progressProp`
is `prop(p, "Progress")` (`none` exactly when null/undefined — zero is
kept). -/
structure NotionRaw where
  name : Option String
  statusStr : Option String
  repoProp : RepoProp
  numberProp : Option ℚ
  urlProp : Option String
  pageUrl : String
  typeStr : Option String
  tagsProp : Option (List String)
  pointsProp : Option ℚ
  progressProp : Option ℚ
  deriving DecidableEq

/-- Line 177: `(prop(p, "Type") || "task").toString().toLowerCase()` —
the select value lower-cased, with the default `task` when it is falsy.
The result is NOT constrained to any enum. -/
def notionType (t : Option String) : String :=
  match t with
  | some s => if s == "" then "task" else String.mk (lowerChars s)
  | none => "task"

/-- Line 189: `Math.max(1, Number(points) || 1)` applied to the resolved
points chain (line 179; the chain's literal `1` default is the `none`
case). -/
def notionPoints : Option ℚ → ℚ
  | some q => max 1 (if q == 0 then 1 else q)
  | none => 1

/-- The fixed done vocabulary of line 173. -/
def doneVocab : List String := ["done", "shipped", "complete", "closed", "✅"]

/-- Line 171: `prop(p, "Name") || "Untitled"` — the falsy values (an
absent property or the empty string) fall back to "Untitled". -/
def notionTitle : Option String → String
  | some s => if s == "" then "Untitled" else s
  | none => "Untitled"

/-- Line 172: the resolved status value, stringified and lower-cased
(the falsy chain bottoming out at `""`). -/
def notionStatusN (statusStr : Option String) : String :=
  String.mk (match statusStr with
    | some s => lowerChars s
    | none => [])

/-- Line 173: `done` iff the lower-cased status value is in the fixed
vocabulary. -/
def notionDone (statusStr : Option String) : Bool :=
  doneVocab.contains (notionStatusN statusStr)

/-- Lines 169-193: the Notion record normalizer.  Title falls back to
"Untitled" when the Name property is falsy (line 171); status is done
iff the lower-cased status value is in the vocabulary (lines 172-173);
number drops a zero value (`|| undefined`, line 175); url falls back to
the page url (line 176); tags are the array sliced to 6 or `[]`
(line 190); progress is the normalized explicit value, else the
status-derived default (line 192). -/
def notionTaskOf (p : NotionRaw) : Task :=
  let done := notionDone p.statusStr
  { source := "notion"
    type := notionType p.typeStr
    repo := normRepo p.repoProp
    number := match p.numberProp with
      | some q => if q == 0 then none else some q
      | none => none
    title := some (notionTitle p.name)
    url := p.urlProp.getD p.pageUrl
    points := notionPoints p.pointsProp
    tags := match p.tagsProp with
      | some l => l.take 6
      | none => []
    status := if done then "done" else "open"
    progress := (normProgress p.progressProp).getD (if done then 1 else 0) }

/-- `!t.repo` of line 200: the repo is `undefined` or the empty
string. -/
def repoFalsy : Option String → Bool
  | none => true
  | some r => r == ""

/-- Line 200: the Notion subset filter
`t => !t.repo || SUBSET.has(t.repo)` — records with a falsy repo are
kept regardless of the subset. -/
def notionKeep (subset : List String) (t : Task) : Bool :=
  repoFalsy t.repo ||
    (match t.repo with
      | some r => subset.contains r
      | none => false)

/-- Lines 160-201 (`fetchNotionTasks`): absent credentials yield an
empty list without error (line 161); otherwise the settled raw pages are
normalized and the subset filter of line 200 is applied when a subset is
configured; a fetch failure propagates (line 128). -/
def fetchNotionTasks (subset : Option (List String)) (configured : Bool)
    (nRes : Except FetchError (List NotionRaw)) : Except FetchError (List Task) :=
  if configured then
    match nRes with
    | .error e => .error e
    | .ok raws =>
      let tasks := raws.map notionTaskOf
      .ok (match subset with
        | some ss => tasks.filter (notionKeep ss)
        | none => tasks)
  else .ok []

/-- Lines 206-207: `.catch(e => ... return [])` — a failed source
settles to the empty list. -/
def catchEmpty (r : Except FetchError (List Task)) : List Task :=
  match r with
  | .ok l => l
  | .error _ => []

/-- The totals object of lines 212-216: note the third field is `xp`,
not `score`. -/
structure Totals where
  «open» : Nat
  «done» : Nat
  xp : ℚ
  deriving DecidableEq

/-- Lines 212-216: `open` counts tasks with `status !== "done"`, `done`
counts tasks with `status === "done"`, `xp` sums `t.points || 0` over
the done tasks (every emitted `points` is ≥ 1, so `|| 0` never
substitutes). -/
def totalsOf (ts : List Task) : Totals :=
  { «open» := (ts.filter fun t => t.status != "done").length
    «done» := (ts.filter fun t => t.status == "done").length
    xp := ((ts.filter fun t => t.status == "done").map Task.points).sum }

/-- The key/value pairs of the serialized totals object, in the
insertion order of the object literal at lines 212-216. -/
def totalsFields (t : Totals) : List (String × ℚ) :=
  [("open", (t.«open» : ℚ)), ("done", (t.«done» : ℚ)), ("xp", t.xp)]

/-- Line 219: the emitted payload `{ generatedAt, totals, tasks }`. -/
structure Payload where
  generatedAt : String
  totals : Totals
  tasks : List Task
  deriving DecidableEq

/-- Lines 204-220 (`main`): settle both fetches (each degrading to `[]`
on failure), concatenate `[...gh, ...notion]`, compute the totals, and
emit the payload. -/
def runPipeline (subset : Option (List String))
    (ghRes : Except FetchError (List GhRaw)) (notionConfigured : Bool)
    (nRes : Except FetchError (List NotionRaw)) (now : String) : Payload :=
  let gh := catchEmpty (fetchGithubTasks subset ghRes)
  let notion := catchEmpty (fetchNotionTasks subset notionConfigured nRes)
  let tasks := gh ++ notion
  { generatedAt := now
    totals := totalsOf tasks
    tasks := tasks }

/-- Line 79: `const per_page = 100`. -/
def per_page : Nat := 100

/-- Lines 80-85, one iteration per fuel unit (the `for` loop runs pages
`1..2`): fetch the page; if it has no items, stop without keeping them
(line 82); keep the items; if the page is short, stop (line 84).
Returns the accumulated items and the pages actually requested. -/
def searchLoop (pageFn : Nat → List α) (page : Nat) : Nat → List α × List Nat
  | 0 => ([], [])
  | fuel + 1 =>
    let items := pageFn page
    if items.length = 0 then ([], [page])
    else if items.length < per_page then (items, [page])
    else
      let r := searchLoop pageFn (page + 1) fuel
      (items ++ r.1, page :: r.2)

/-- Lines 78-86 (`search`): the paginated search, pages 1 to 2. -/
def search (pageFn : Nat → List α) : List α × List Nat :=
  searchLoop pageFn 1 2

/-- Lines 88-89: the two searches (open issues, then open PRs) push into
one shared list in order. -/
def fetchGithubAll (issuePages prPages : Nat → List GhRaw) : List GhRaw :=
  (search issuePages).1 ++ (search prPages).1

/-- Concrete records used by the examples, witnesses and
counterexamples. -/
def ghS1 : GhRaw :=
  ⟨some "Fix crash", "https://github.com/jai-nexus/repoA/issues/1", some 1,
    "https://api.github.com/repos/jai-nexus/repoA", ["bug", "p:3"], false, "open"⟩

/-- A closed pull request labeled `feature`. -/
def ghS2 : GhRaw :=
  ⟨some "Add feature", "https://github.com/jai-nexus/repoA/pull/2", some 2,
    "https://api.github.com/repos/jai-nexus/repoA", ["feature"], true, "closed"⟩

/-- A GitHub item whose `title` is undefined. -/
def ghNoTitle : GhRaw :=
  ⟨none, "https://github.com/jai-nexus/repoA/issues/3", some 3,
    "https://api.github.com/repos/jai-nexus/repoA", [], false, "open"⟩

/-- A GitHub item whose repository URL ends in a slash, so the derived
repo name is the empty string. -/
def ghSlashUrl : GhRaw :=
  ⟨some "Stray", "https://github.com/x/4", some 4,
    "https://api.github.com/repos/jai-nexus/", [], false, "open"⟩

/-- A GitHub item with a label matching only the third points pattern. -/
def gh5points : GhRaw :=
  ⟨some "Scored", "https://github.com/jai-nexus/repoA/issues/5", some 5,
    "https://api.github.com/repos/jai-nexus/repoA", ["5 points"], false, "open"⟩

/-- A Notion page with no Repo property. -/
def nNoRepo : NotionRaw :=
  ⟨some "W", none, .noVal, none, none, "https://notion.so/p1", none, none, none, none⟩

/-- A Notion page whose Type select is `Epic`. -/
def nEpic : NotionRaw :=
  ⟨some "E", none, .noVal, none, none, "https://notion.so/p2", some "Epic", none, none, none⟩

/-- A Notion page whose Progress is 1.0005, inside the interval
(1, 1.001] where the code and the claim disagree. -/
def nProgMid : NotionRaw :=
  ⟨some "M", none, .noVal, none, none, "https://notion.so/p3", none, none, none,
    some 1.0005⟩

/-- A Notion page whose Progress is the percentage 50. -/
def nProg50 : NotionRaw :=
  ⟨some "P", none, .noVal, none, none, "https://notion.so/p4", none, none, none, some 50⟩

/-- A done Notion page with no explicit Progress and no Name. -/
def nDoneNoProg : NotionRaw :=
  ⟨none, some "Done", .arr ["r1"], none, none, "https://notion.so/p5", some "Bug",
    some ["a"], some 5, none⟩

example : pointsOfLabel "p:5" = some 5 := by decide
example : pointsOfLabel "points-3" = some 3 := by decide
example : pointsOfLabel "5 points" = some 5 := by decide
example : pointsOfLabel "priority p:3" = some 3 := by decide
example : pointsOfLabel "p 7" = some 7 := by decide
example : pointsOfLabel "bug" = none := by decide
example : pointsOfLabel "xp:3" = none := by decide
example : parsePoints ["bug", "p:3"] = 3 := by decide
example : parsePoints ["feature"] = 1 := by decide
example : parsePoints ["p:0"] = 1 := by decide
example : guessType ["bug", "p:3"] "issue" = "bug" := by decide
example : guessType ["feature"] "pr" = "feature" := by decide
example : guessType [] "pr" = "pr" := by decide
example : guessType [] "" = "task" := by decide
example : takeTags ["bug", "p:3", "ui"] = ["bug", "ui"] := by decide
example : takeTags ["5 points", "points 4", "ui"] = ["5 points", "ui"] := by decide
example : repoFromUrl "https://api.github.com/repos/jai-nexus/repoA" = "repoA" := by decide
example : repoFromUrl "https://api.github.com/repos/jai-nexus/" = "" := by decide
example : normProgress (some 50) = some (1 / 2) := by norm_num [normProgress]
example : normProgress (some 1.0005) = some 1 := by norm_num [normProgress]
example : normProgress (some (-3)) = some 0 := by norm_num [normProgress]
example : normProgress none = none := by decide
example : (notionTaskOf nDoneNoProg).status = "done" := by decide
example : (notionTaskOf nDoneNoProg).progress = 1 := by decide
example : (notionTaskOf nDoneNoProg).title = some "Untitled" := by decide
example : (notionTaskOf nDoneNoProg).repo = some "r1" := by decide
example : (ghTaskOf ghS1).points = 3 := by decide
example : (ghTaskOf ghS2).status = "done" := by decide
example : (ghTaskOf ghS2).type = "feature" := by decide

/-- The seven type values the specification's §3 enum names; kept as a
claim-side definition to compare against the code's behavior. -/
def specTypeEnum : List String := ["bug", "docs", "feature", "infra", "task", "pr", "issue"]

theorem clamp_bounds (y : ℚ) : 0 ≤ max 0 (min 1 y) ∧ max 0 (min 1 y) ≤ 1 :=
  ⟨le_max_left _ _, max_le (by norm_num) (min_le_left _ _)⟩

theorem parsePoints_ge_one (labels : List String) : 1 ≤ parsePoints labels := by
  unfold parsePoints
  cases h : labels.findSome? pointsOfLabel with
  | none => exact le_refl 1
  | some n => exact le_max_left 1 n

theorem notionPoints_ge_one (p : Option ℚ) : 1 ≤ notionPoints p := by
  cases p with
  | none => exact le_refl 1
  | some q => exact le_max_left 1 _

theorem progressD_bounds (v : Option ℚ) (d : Bool) :
    0 ≤ (normProgress v).getD (if d then 1 else 0)
      ∧ (normProgress v).getD (if d then 1 else 0) ≤ 1 := by
  cases v with
  | none => cases d <;> simp [normProgress]
  | some x =>
    simp only [normProgress]
    split <;> (rw [Option.getD_some]; exact clamp_bounds _)

theorem guessType_cases (labels : List String) (fallback : String) :
    guessType labels fallback = "bug" ∨ guessType labels fallback = "docs"
  ∨ guessType labels fallback = "feature" ∨ guessType labels fallback = "infra"
  ∨ guessType labels fallback = "task" ∨ guessType labels fallback = fallback := by
  unfold guessType
  repeat' split
  all_goals simp

theorem ghType_mem (labels : List String) (b : Bool) :
    guessType labels (if b then "pr" else "issue") ∈ specTypeEnum := by
  rcases guessType_cases labels (if b then "pr" else "issue") with h | h | h | h | h | h <;>
    rw [h] <;> cases b <;> simp [specTypeEnum]

theorem notionTitle_ne_empty (t : Option String) : notionTitle t ≠ "" := by
  cases t with
  | none => simp [notionTitle]
  | some s =>
    simp only [notionTitle]
    split
    · simp
    · rename_i h
      simpa using h

theorem ghTaskOf_status (it : GhRaw) :
    (ghTaskOf it).status = "open" ∨ (ghTaskOf it).status = "done" := by
  show (if it.state == "closed" then "done" else "open") = "open"
    ∨ (if it.state == "closed" then "done" else "open") = "done"
  split
  · right; rfl
  · left; rfl

theorem notionTaskOf_status (p : NotionRaw) :
    (notionTaskOf p).status = "open" ∨ (notionTaskOf p).status = "done" := by
  show (if notionDone p.statusStr then "done" else "open") = "open"
    ∨ (if notionDone p.statusStr then "done" else "open") = "done"
  split
  · right; rfl
  · left; rfl

theorem ghTaskOf_inv (it : GhRaw) :
    1 ≤ (ghTaskOf it).points ∧ 0 ≤ (ghTaskOf it).progress
      ∧ (ghTaskOf it).progress ≤ 1 ∧ (ghTaskOf it).tags.length ≤ 6 := by
  refine ⟨?_, ?_, ?_, ?_⟩
  · show (1 : ℚ) ≤ (parsePoints it.labels : ℚ)
    exact_mod_cast parsePoints_ge_one it.labels
  · show (0 : ℚ) ≤
      if (if it.state == "closed" then "done" else "open") == "done" then 1 else 0
    split <;> simp
  · show (if (if it.state == "closed" then "done" else "open") == "done"
        then (1 : ℚ) else 0) ≤ 1
    split <;> simp
  · show (takeTags it.labels).length ≤ 6
    exact List.length_take_le 6 _

theorem notionTaskOf_inv (p : NotionRaw) :
    1 ≤ (notionTaskOf p).points ∧ 0 ≤ (notionTaskOf p).progress
      ∧ (notionTaskOf p).progress ≤ 1 ∧ (notionTaskOf p).tags.length ≤ 6 := by
  refine ⟨notionPoints_ge_one p.pointsProp,
    (progressD_bounds p.progressProp (notionDone p.statusStr)).1,
    (progressD_bounds p.progressProp (notionDone p.statusStr)).2, ?_⟩
  show (match p.tagsProp with
    | some l => l.take 6
    | none => []).length ≤ 6
  cases p.tagsProp with
  | none => simp
  | some l => exact List.length_take_le 6 l

theorem mem_gh_cases {subset : Option (List String)}
    {ghRes : Except FetchError (List GhRaw)} {t : Task}
    (h : t ∈ catchEmpty (fetchGithubTasks subset ghRes)) : ∃ it, t = ghTaskOf it := by
  cases ghRes with
  | error e => simp [catchEmpty, fetchGithubTasks] at h
  | ok raws =>
    cases subset with
    | none =>
      simp only [catchEmpty, fetchGithubTasks] at h
      rcases List.mem_map.mp h with ⟨it, _, hit⟩
      exact ⟨it, hit.symm⟩
    | some ss =>
      simp only [catchEmpty, fetchGithubTasks] at h
      rcases List.mem_map.mp (List.mem_of_mem_filter h) with ⟨it, _, hit⟩
      exact ⟨it, hit.symm⟩

theorem mem_notion_cases {subset : Option (List String)} {cfg : Bool}
    {nRes : Except FetchError (List NotionRaw)} {t : Task}
    (h : t ∈ catchEmpty (fetchNotionTasks subset cfg nRes)) : ∃ p, t = notionTaskOf p := by
  cases cfg with
  | false => simp [catchEmpty, fetchNotionTasks] at h
  | true =>
    cases nRes with
    | error e => simp [catchEmpty, fetchNotionTasks] at h
    | ok raws =>
      cases subset with
      | none =>
        simp only [catchEmpty, fetchNotionTasks, if_pos] at h
        rcases List.mem_map.mp h with ⟨p, _, hp⟩
        exact ⟨p, hp.symm⟩
      | some ss =>
        simp only [catchEmpty, fetchNotionTasks, if_pos] at h
        rcases List.mem_map.mp (List.mem_of_mem_filter h) with ⟨p, _, hp⟩
        exact ⟨p, hp.symm⟩

theorem mem_run_cases {subset : Option (List String)}
    {ghRes : Except FetchError (List GhRaw)} {cfg : Bool}
    {nRes : Except FetchError (List NotionRaw)} {now : String} {t : Task}
    (h : t ∈ (runPipeline subset ghRes cfg nRes now).tasks) :
    (∃ it, t = ghTaskOf it) ∨ (∃ p, t = notionTaskOf p) := by
  simp only [runPipeline] at h
  rcases List.mem_append.mp h with h | h
  · exact Or.inl (mem_gh_cases h)
  · exact Or.inr (mem_notion_cases h)

theorem length_filter_not_add (l : List α) (p : α → Bool) :
    (l.filter fun a => !(p a)).length + (l.filter p).length = l.length := by
  induction l with
  | nil => rfl
  | cons a t ih =>
    by_cases h : p a = true
    · simp only [List.filter_cons, h, Bool.not_true, List.length_cons, ← ih]
      simp
      omega
    · simp only [List.filter_cons, Bool.not_eq_true] at *
      simp [h, ← ih]
      omega

theorem searchLoop_zero (pageFn : Nat → List α) (page : Nat) :
    searchLoop pageFn page 0 = ([], []) := rfl

theorem searchLoop_succ (pageFn : Nat → List α) (page fuel : Nat) :
    searchLoop pageFn page (fuel + 1)
      = if (pageFn page).length = 0 then ([], [page])
        else if (pageFn page).length < per_page then (pageFn page, [page])
        else (pageFn page ++ (searchLoop pageFn (page + 1) fuel).1,
              page :: (searchLoop pageFn (page + 1) fuel).2) := rfl

/-- C1 (amended to the code): the emitted payload's totals object has
exactly the fields open, done and xp — xp, not score — where open counts
the tasks with status ≠ done, done counts the tasks with status = done,
and xp is the sum of points over the tasks with status = done. -/
theorem c1_totals (subset : Option (List String))
    (ghRes : Except FetchError (List GhRaw)) (cfg : Bool)
    (nRes : Except FetchError (List NotionRaw)) (now : String) :
    (runPipeline subset ghRes cfg nRes now).totals.«open»
        = ((runPipeline subset ghRes cfg nRes now).tasks.filter
            fun t => decide ¬(t.status = "done")).length
  ∧ (runPipeline subset ghRes cfg nRes now).totals.«done»
        = ((runPipeline subset ghRes cfg nRes now).tasks.filter
            fun t => decide (t.status = "done")).length
  ∧ (runPipeline subset ghRes cfg nRes now).totals.xp
        = (((runPipeline subset ghRes cfg nRes now).tasks.filter
            fun t => decide (t.status = "done")).map Task.points).sum
  ∧ (totalsFields (runPipeline subset ghRes cfg nRes now).totals).map Prod.fst
        = ["open", "done", "xp"] := by
  have hne : (fun t : Task => t.status != "done") = fun t => decide ¬(t.status = "done") := by
    funext t
    by_cases h : t.status = "done" <;> simp [h]
  have heq : (fun t : Task => t.status == "done") = fun t => decide (t.status = "done") := by
    funext t
    by_cases h : t.status = "done" <;> simp [h]
  refine ⟨?_, ?_, ?_, rfl⟩ <;> simp only [runPipeline, totalsOf, hne, heq]

/-- Counterexample to C1 as stated: the third field of the emitted
totals object is named xp, not score. -/
theorem c1_totals_counterexample :
    (totalsFields (runPipeline none (Except.ok [ghS2]) false
        (Except.ok []) "t").totals).map Prod.fst = ["open", "done", "xp"]
  ∧ "score" ∉ (totalsFields (runPipeline none (Except.ok [ghS2]) false
        (Except.ok []) "t").totals).map Prod.fst := by
  constructor
  · rfl
  · decide

/-- C2: a failed or unconfigured source contributes an empty sequence
and the run still writes a payload; when the workspace-database source
fails or is unconfigured, the tasks sequence equals exactly the
code-hosting source's normalized output and the totals are computed from
that source alone. -/
theorem c2_degrade (subset : Option (List String)) (now : String) :
    (∀ ghRes nRes,
        (runPipeline subset ghRes false nRes now).tasks
          = catchEmpty (fetchGithubTasks subset ghRes)
      ∧ (runPipeline subset ghRes false nRes now).totals
          = totalsOf (catchEmpty (fetchGithubTasks subset ghRes))
      ∧ (runPipeline subset ghRes false nRes now).generatedAt = now)
  ∧ (∀ ghRes e,
        (runPipeline subset ghRes true (Except.error e) now).tasks
          = catchEmpty (fetchGithubTasks subset ghRes)
      ∧ (runPipeline subset ghRes true (Except.error e) now).totals
          = totalsOf (catchEmpty (fetchGithubTasks subset ghRes))
      ∧ (runPipeline subset ghRes true (Except.error e) now).generatedAt = now)
  ∧ (∀ e cfg nRes,
        (runPipeline subset (Except.error e) cfg nRes now).tasks
          = catchEmpty (fetchNotionTasks subset cfg nRes)
      ∧ (runPipeline subset (Except.error e) cfg nRes now).generatedAt = now) := by
  refine ⟨fun ghRes nRes => ?_, fun ghRes e => ?_, fun e cfg nRes => ?_⟩ <;>
    simp [runPipeline, fetchGithubTasks, fetchNotionTasks, catchEmpty]

/-- C3 (amended to the code): with a subset configured, the
workspace-database filter keeps records whose repo is absent or empty
regardless of the list and keeps other records iff the list contains
their repo (case-sensitive exact match); the code-hosting filter keeps a
record iff the list contains its repo value, with no leniency for
records lacking a repo; with no subset, every record is kept. -/
theorem c3_allowlist (subset : List String) (t : Task) :
    (ghKeep subset t = true ↔ ∃ r, t.repo = some r ∧ r ∈ subset)
  ∧ (notionKeep subset t = true
      ↔ (t.repo = none ∨ t.repo = some "" ∨ ∃ r, t.repo = some r ∧ r ∈ subset))
  ∧ (∀ raws, fetchGithubTasks (some subset) (Except.ok raws)
      = Except.ok ((raws.map ghTaskOf).filter (ghKeep subset)))
  ∧ (∀ raws, fetchNotionTasks (some subset) true (Except.ok raws)
      = Except.ok ((raws.map notionTaskOf).filter (notionKeep subset)))
  ∧ (∀ raws, fetchGithubTasks none (Except.ok raws) = Except.ok (raws.map ghTaskOf))
  ∧ (∀ raws, fetchNotionTasks none true (Except.ok raws)
      = Except.ok (raws.map notionTaskOf)) := by
  refine ⟨?_, ?_, fun _ => rfl, fun _ => rfl, fun _ => rfl, fun _ => rfl⟩
  · cases h : t.repo with
    | none => simp [ghKeep, h]
    | some r => simp [ghKeep, h]
  · cases h : t.repo with
    | none => simp [notionKeep, repoFalsy, h]
    | some r =>
      by_cases hr : r = "" <;> simp [notionKeep, repoFalsy, h, hr]

/-- Counterexample to C3 as stated: the code-hosting filter keeps no
record lacking a repo — a normalized record with no repo is dropped by
it, and a code-hosting record whose derived repo name is empty is
excluded end-to-end. -/
theorem c3_allowlist_counterexample :
    (notionTaskOf nNoRepo).repo = none
  ∧ ghKeep ["repoA"] (notionTaskOf nNoRepo) = false
  ∧ (ghTaskOf ghSlashUrl).repo = some ""
  ∧ (runPipeline (some ["repoA"]) (Except.ok [ghSlashUrl]) false
      (Except.ok []) "t").tasks = [] := by
  refine ⟨rfl, rfl, by decide, by decide⟩

/-- C4 (amended to the code): the percent rescale applies when
v > 1.001, not v > 1: an explicit progress value v is normalized to
clamp(v/100, 0, 1) when v > 1.001 and to clamp(v, 0, 1) otherwise;
absent an explicit value, progress is 1.0 for a done record and 0.0
otherwise. -/
theorem c4_progress (p : NotionRaw) :
    (∀ v : ℚ, p.progressProp = some v →
        (notionTaskOf p).progress
          = if 1.001 < v then max 0 (min 1 (v / 100)) else max 0 (min 1 v))
  ∧ (p.progressProp = none →
        (notionTaskOf p).progress
          = if (notionTaskOf p).status = "done" then 1 else 0) := by
  constructor
  · intro v hv
    show (normProgress p.progressProp).getD _ = _
    rw [hv]
    simp only [normProgress]
    split <;> simp
  · intro hv
    show (normProgress p.progressProp).getD (if notionDone p.statusStr then 1 else 0)
        = if (if notionDone p.statusStr then "done" else "open") = "done" then 1 else 0
    rw [hv]
    cases notionDone p.statusStr <;> simp [normProgress]

/-- Witness for C4 at concrete workspace pages. -/
theorem c4_progress_witness :
    (notionTaskOf nProg50).progress
        = (if 1.001 < (50 : ℚ) then max 0 (min 1 ((50 : ℚ) / 100))
            else max 0 (min 1 (50 : ℚ)))
  ∧ (notionTaskOf nDoneNoProg).progress
        = (if (notionTaskOf nDoneNoProg).status = "done" then 1 else 0) :=
  ⟨(c4_progress nProg50).1 50 rfl, (c4_progress nDoneNoProg).2 rfl⟩

/-- Counterexample to C4 as stated: at the explicit progress value
1.0005 — inside (1, 1.001] — the code keeps clamp(v, 0, 1) = 1, while
the claim's formula (rescale whenever v > 1) demands
clamp(v/100, 0, 1) = 0.010005. -/
theorem c4_progress_counterexample :
    (notionTaskOf nProgMid).progress = 1
  ∧ (notionTaskOf nProgMid).progress
      ≠ (if 1 < (1.0005 : ℚ) then max 0 (min 1 ((1.0005 : ℚ) / 100))
          else max 0 (min 1 (1.0005 : ℚ))) := by
  have h : (notionTaskOf nProgMid).progress = 1 := by
    show (normProgress (some 1.0005)).getD _ = 1
    norm_num [normProgress]
  refine ⟨h, ?_⟩
  rw [h]
  norm_num

/-- C5 (amended to the code): a code-hosting record's tags are the
non-empty label names minus those matching the first points pattern
(p[:= -]?digits) and those matching the second (points?[:= -]?digits) —
the third pattern (digits points) is NOT filtered — truncated to at most
6 entries, with the original label order preserved. -/
theorem c5_tags (it : GhRaw) :
    (ghTaskOf it).tags
      = (((it.labels.filter fun n => n != "").filter
            fun n => !(scanMatch p1At (lowerChars n)).isSome).filter
            fun n => !(scanMatch p2At (lowerChars n)).isSome).take 6
  ∧ (ghTaskOf it).tags.length ≤ 6
  ∧ List.Sublist (ghTaskOf it).tags it.labels := by
  refine ⟨rfl, ?_, ?_⟩
  · show (takeTags it.labels).length ≤ 6
    exact List.length_take_le 6 _
  · show List.Sublist (takeTags it.labels) it.labels
    exact (List.take_sublist _ _).trans ((List.filter_sublist _).trans
      ((List.filter_sublist _).trans (List.filter_sublist _)))

/-- Counterexample to C5 as stated: the label "5 points" matches the
third points-encoding pattern yet survives into the tags. -/
theorem c5_tags_counterexample :
    (ghTaskOf gh5points).tags = ["5 points"]
  ∧ (scanMatch p3At (lowerChars "5 points")).isSome = true := by decide

/-- C6 (amended to the code): the workspace normalizer always produces a
non-empty title, substituting the fixed placeholder "Untitled" when the
Name property is absent or empty; the code-hosting normalizer passes the
source title through verbatim, with no placeholder fallback. -/
theorem c6_title (it : GhRaw) (p : NotionRaw) :
    (notionTaskOf p).title ≠ none
  ∧ (notionTaskOf p).title ≠ some ""
  ∧ (p.name = none → (notionTaskOf p).title = some "Untitled")
  ∧ (p.name = some "" → (notionTaskOf p).title = some "Untitled")
  ∧ (ghTaskOf it).title = it.title := by
  refine ⟨by simp [notionTaskOf], ?_, ?_, ?_, rfl⟩
  · show some (notionTitle p.name) ≠ some ""
    simpa using notionTitle_ne_empty p.name
  · intro h
    show some (notionTitle p.name) = some "Untitled"
    rw [h]
    rfl
  · intro h
    show some (notionTitle p.name) = some "Untitled"
    rw [h]
    rfl

/-- Witness for C6 at concrete records. -/
theorem c6_title_witness :
    (notionTaskOf nDoneNoProg).title ≠ none
  ∧ (notionTaskOf nDoneNoProg).title ≠ some ""
  ∧ (notionTaskOf nDoneNoProg).title = some "Untitled"
  ∧ (ghTaskOf ghS1).title = ghS1.title :=
  ⟨(c6_title ghS1 nDoneNoProg).1, (c6_title ghS1 nDoneNoProg).2.1,
   (c6_title ghS1 nDoneNoProg).2.2.1 rfl, (c6_title ghS1 nDoneNoProg).2.2.2.2⟩

/-- Counterexample to C6 as stated: a code-hosting item with no source
title yields a task with no title at all — no placeholder is
substituted. -/
theorem c6_title_counterexample : (ghTaskOf ghNoTitle).title = none := rfl

/-- C7 (amended to the code): every code-hosting task's type is one of
the seven values bug, docs, feature, infra, task, pr, issue; a workspace
task's type is the lower-cased select value (default "task"), and is NOT
constrained to that enum. -/
theorem c7_type (it : GhRaw) (p : NotionRaw) :
    (ghTaskOf it).type ∈ specTypeEnum
  ∧ (notionTaskOf p).type = notionType p.typeStr
  ∧ (p.typeStr = none → (notionTaskOf p).type = "task")
  ∧ (∀ s, p.typeStr = some s → s ≠ "" →
      (notionTaskOf p).type = String.mk (lowerChars s)) := by
  refine ⟨?_, rfl, ?_, ?_⟩
  · show guessType it.labels (if it.pull_request then "pr" else "issue") ∈ specTypeEnum
    exact ghType_mem it.labels it.pull_request
  · intro h
    show notionType p.typeStr = "task"
    rw [h]
    rfl
  · intro s h hs
    show notionType p.typeStr = String.mk (lowerChars s)
    rw [h]
    simp [notionType, hs]

/-- Witness for C7 at concrete records. -/
theorem c7_type_witness :
    (ghTaskOf ghS1).type ∈ specTypeEnum
  ∧ (notionTaskOf nNoRepo).type = "task"
  ∧ (notionTaskOf nEpic).type = String.mk (lowerChars "Epic") :=
  ⟨(c7_type ghS1 nNoRepo).1, (c7_type ghS1 nNoRepo).2.2.1 rfl,
   (c7_type ghS1 nEpic).2.2.2 "Epic" rfl (by decide)⟩

/-- Counterexample to C7 as stated: the select value Epic yields the
type "epic", which is not one of the seven enum values. -/
theorem c7_type_counterexample :
    (notionTaskOf nEpic).type = "epic" ∧ "epic" ∉ specTypeEnum := by decide

/-- C8: all task records produced by the pipeline, from either source,
have points ≥ 1, progress within [0, 1], and at most 6 tags. -/
theorem c8_invariants (subset : Option (List String))
    (ghRes : Except FetchError (List GhRaw)) (cfg : Bool)
    (nRes : Except FetchError (List NotionRaw)) (now : String) :
    ∀ t ∈ (runPipeline subset ghRes cfg nRes now).tasks,
      1 ≤ t.points ∧ 0 ≤ t.progress ∧ t.progress ≤ 1 ∧ t.tags.length ≤ 6 := by
  intro t ht
  rcases mem_run_cases ht with ⟨it, rfl⟩ | ⟨p, rfl⟩
  · exact ghTaskOf_inv it
  · exact notionTaskOf_inv p

/-- Witness for C8 at a concrete run containing one task. -/
theorem c8_invariants_witness :
    1 ≤ (ghTaskOf ghS1).points ∧ 0 ≤ (ghTaskOf ghS1).progress
      ∧ (ghTaskOf ghS1).progress ≤ 1 ∧ (ghTaskOf ghS1).tags.length ≤ 6 :=
  c8_invariants none (Except.ok [ghS1]) false (Except.ok []) "t" (ghTaskOf ghS1)
    (by simp [runPipeline, fetchGithubTasks, fetchNotionTasks, catchEmpty])

/-- C9: each of the two paginated searches accumulates at most 2 pages
of at most 100 items each (at most 200 records per search), requests
only pages 1 and 2, and stops requesting further pages as soon as a page
returns strictly fewer items than the page size of 100 or returns zero
items. -/
theorem c9_pagination {α : Type} (pageFn : Nat → List α)
    (hcap : ∀ p, (pageFn p).length ≤ 100) :
    (search pageFn).1.length ≤ 200
  ∧ (search pageFn).2.length ≤ 2
  ∧ (∀ p ∈ (search pageFn).2, p = 1 ∨ p = 2)
  ∧ ((pageFn 1).length < 100 → (search pageFn).2 = [1])
  ∧ ((pageFn 1).length = 0 → (search pageFn).2 = [1])
  ∧ (∀ issuePF prPF : Nat → List GhRaw,
      fetchGithubAll issuePF prPF = (search issuePF).1 ++ (search prPF).1) := by
  have h1 := hcap 1
  have h2 := hcap 2
  have e1 : search pageFn
      = if (pageFn 1).length = 0 then ([], [1])
        else if (pageFn 1).length < 100 then (pageFn 1, [1])
        else (pageFn 1 ++ (searchLoop pageFn 2 1).1, 1 :: (searchLoop pageFn 2 1).2) :=
    searchLoop_succ pageFn 1 1
  have e2 : searchLoop pageFn 2 1
      = if (pageFn 2).length = 0 then ([], [2])
        else if (pageFn 2).length < 100 then (pageFn 2, [2])
        else (pageFn 2 ++ ([] : List α), 2 :: ([] : List Nat)) := by
    rw [searchLoop_succ pageFn 2 0, searchLoop_zero]
    rfl
  by_cases c0 : (pageFn 1).length = 0
  · rw [e1, if_pos c0]
    refine ⟨by simp, by simp, ?_, fun _ => rfl, fun _ => rfl, fun _ _ => rfl⟩
    intro p hp
    left
    simpa using hp
  · rw [e1, if_neg c0]
    by_cases c1 : (pageFn 1).length < 100
    · rw [if_pos c1]
      refine ⟨?_, by simp, ?_, fun _ => rfl, fun h => absurd h c0, fun _ _ => rfl⟩
      · show (pageFn 1).length ≤ 200
        omega
      intro p hp
      left
      simpa using hp
    · rw [if_neg c1]
      by_cases c20 : (pageFn 2).length = 0
      · rw [e2, if_pos c20]
        refine ⟨?_, by simp, ?_, fun h => absurd h c1, fun h => absurd h c0, fun _ _ => rfl⟩
        · simp only [List.length_append, List.length_nil]
          omega
        · intro p hp
          simp only [List.mem_cons, List.not_mem_nil, or_false] at hp
          exact hp
      · rw [e2, if_neg c20]
        by_cases c21 : (pageFn 2).length < 100
        · rw [if_pos c21]
          refine ⟨?_, by simp, ?_, fun h => absurd h c1, fun h => absurd h c0,
            fun _ _ => rfl⟩
          · simp only [List.length_append]
            omega
          · intro p hp
            simp only [List.mem_cons, List.not_mem_nil, or_false] at hp
            exact hp
        · rw [if_neg c21]
          refine ⟨?_, by simp, ?_, fun h => absurd h c1, fun h => absurd h c0,
            fun _ _ => rfl⟩
          · simp only [List.length_append, List.length_nil]
            omega
          · intro p hp
            simp only [List.mem_cons, List.not_mem_nil, or_false] at hp
            exact hp

/-- Witness for C9 at a source whose every page is empty. -/
theorem c9_pagination_witness :
    (search (fun _ : Nat => ([] : List Nat))).2 = [1] :=
  (c9_pagination (fun _ : Nat => ([] : List Nat)) (fun p => by simp)).2.2.2.2.1 rfl

/-- C10: for every pipeline run, totals.open plus totals.done equals the
length of the payload's tasks sequence, and every task's status is
exactly one of "open" and "done", so each task is counted in exactly one
of the two totals. -/
theorem c10_partition (subset : Option (List String))
    (ghRes : Except FetchError (List GhRaw)) (cfg : Bool)
    (nRes : Except FetchError (List NotionRaw)) (now : String) :
    (runPipeline subset ghRes cfg nRes now).totals.«open»
        + (runPipeline subset ghRes cfg nRes now).totals.«done»
      = (runPipeline subset ghRes cfg nRes now).tasks.length
  ∧ ∀ t ∈ (runPipeline subset ghRes cfg nRes now).tasks,
      t.status = "open" ∨ t.status = "done" := by
  constructor
  · exact length_filter_not_add (runPipeline subset ghRes cfg nRes now).tasks
      (fun t : Task => t.status == "done")
  · intro t ht
    rcases mem_run_cases ht with ⟨it, rfl⟩ | ⟨p, rfl⟩
    · exact ghTaskOf_status it
    · exact notionTaskOf_status p

/-- Witness for C10 at a concrete run containing one open task. -/
theorem c10_partition_witness :
    (runPipeline none (Except.ok [ghS1]) false (Except.ok []) "t").totals.«open»
        + (runPipeline none (Except.ok [ghS1]) false (Except.ok []) "t").totals.«done»
      = (runPipeline none (Except.ok [ghS1]) false (Except.ok []) "t").tasks.length
  ∧ ((ghTaskOf ghS1).status = "open" ∨ (ghTaskOf ghS1).status = "done") :=
  ⟨(c10_partition none (Except.ok [ghS1]) false (Except.ok []) "t").1,
   (c10_partition none (Except.ok [ghS1]) false (Except.ok []) "t").2 (ghTaskOf ghS1)
     (by simp [runPipeline, fetchGithubTasks, fetchNotionTasks, catchEmpty])⟩

end AggregateTasks
